import Mathlib

/-
A shallow embedding of the watchman subscription engine from
src/cmds/subscribe.cpp: the subscription data model, the defer/drop policy
scan, cursor bookkeeping, result building, and the per-client subscription
registry, together with proofs about these operations.

External collaborators (the watch engine, the query engine, JSON wire
framing) are modelled as explicit inputs: the query engine is a function
from the query template to an outcome, and the root supplies a snapshot of
its tick value, asserted-state set and VCS flag.
-/

/-- Severity of a log call; the source logs either at error severity
(watchman ERR, W_LOG_ERR) or at debug severity (watchman DBG, W_LOG_DBG). -/
inductive LogLevel
  | ERR
  | DBG
deriving DecidableEq

/-- One log call: severity plus message text. -/
structure LogEntry where
  level : LogLevel
  msg : String
deriving DecidableEq

/-- Clock position in a root, as used by
getMostRecentRootNumberAndTickValue: a root generation number plus a tick
counter. -/
structure ClockPosition where
  root_number : Nat
  ticks : Nat
deriving DecidableEq

/-- Modelled from the spec: ClockPosition::toClockString is declared
outside this fragment; the spec describes a canonical string serialization
of the root generation plus the tick. -/
def toClockString (p : ClockPosition) : String :=
  "c:" ++ toString p.root_number ++ ":" ++ toString p.ticks

/-- A clock spec as stored in a query since-cursor. The source
distinguishes the w_cs_clock tag from the other tags (timestamp, named
cursor); only the clock tag matters to this fragment, the rest are folded
into one constructor. -/
inductive w_clockspec
  | clock (position : ClockPosition)
  | other
deriving DecidableEq

/-- The part of the parsed query template this engine reads and writes:
the since-cursor and the two timeouts mutated by
build_subscription_results. -/
structure w_query where
  since_spec : Option w_clockspec
  sync_timeout : Nat
  lock_timeout : Nat
deriving DecidableEq

/-- A successful query engine result: the clock observed at the start of
the query, the matched records and the freshness flag. -/
structure w_query_res where
  clockAtStartOfQuery : ClockPosition
  resultsArray : List String
  is_fresh_instance : Bool
deriving DecidableEq

/-- Outcome of w_query_execute_locked: either the engine reports an error
message, or it succeeds with a result. -/
inductive QueryOutcome
  | fail (errmsg : String)
  | ok (res : w_query_res)
deriving DecidableEq

/-- The snapshot of the root the dispatch path reads: path, current clock
position, the asserted-state name set, the VCS-operation flag, the
configured lock timeout, and accumulated warnings. -/
structure w_root where
  root_path : String
  root_number : Nat
  ticks : Nat
  asserted_states : List String
  vcsInProgress : Bool
  subscription_lock_timeout_ms : Option Nat
  warnings : List String
deriving DecidableEq

/-- The subscription entity: name, owned query template, tick cursor,
policy table and the defer-on-VCS flag. The policy table drop_or_defer
maps a state name to a bool that is true for drop and false for defer.
Modelled from the spec: the container type of drop_or_defer is declared
outside this fragment; per the spec it is an ordered association
structure preserving insertion order, so it is embedded as a list of
pairs scanned front to back. -/
structure watchman_client_subscription where
  name : String
  query : w_query
  last_sub_tick : Nat
  drop_or_defer : List (String × Bool)
  vcs_defer : Bool
deriving DecidableEq

/-- The unilateral push payload built for a non-empty result, with the
wire fields of the source response plus the warnings attached by
add_root_warnings_to_response. -/
structure SubscriptionPayload where
  since : Option String
  is_fresh_instance : Bool
  clock : String
  files : List String
  root : String
  subscription : String
  unilateral : Bool
  warnings : List String
deriving DecidableEq

/-- Result of the policy loop in processSubscription: the defer and drop
flags and the name of the policy that decided. -/
structure ScanResult where
  defer : Bool
  drop : Bool
  policy_name : String
deriving DecidableEq

/-- The policy loop body of processSubscription (the for loop over
drop_or_defer): carries the defer flag and policy name accumulated so
far; a matching drop entry ends the loop at once. -/
def scanLoop (asserted : List String) :
    List (String × Bool) → Bool → String → ScanResult
  | [], defer0, pname => { defer := defer0, drop := false, policy_name := pname }
  | (nm, isDrop) :: rest, defer0, pname =>
      if asserted.contains nm then
        if isDrop then { defer := true, drop := true, policy_name := nm }
        else scanLoop asserted rest true (if defer0 then pname else nm)
      else scanLoop asserted rest defer0 pname

/-- The guarded policy scan of processSubscription: the loop only runs
when both the asserted-state set and the policy table are non-empty. -/
def policyScan (asserted : List String) (table : List (String × Bool)) : ScanResult :=
  if !asserted.isEmpty && !table.isEmpty then scanLoop asserted table false ""
  else { defer := false, drop := false, policy_name := "" }

/-- The query value handed to the engine by build_subscription_results:
the template with sync_timeout forced to zero and lock_timeout taken from
the subscription_lock_timeout_ms config with default 100. -/
def queryForExecution (sub : watchman_client_subscription) (root : w_root) : w_query :=
  { sub.query with
      sync_timeout := 0,
      lock_timeout := root.subscription_lock_timeout_ms.getD 100 }

/-- update_subscription_ticks: install the clock observed at the start of
the query as the new since-cursor of the subscription query template. -/
def update_subscription_ticks (sub : watchman_client_subscription)
    (res : w_query_res) : watchman_client_subscription :=
  { sub with query :=
      { sub.query with since_spec := some (w_clockspec.clock res.clockAtStartOfQuery) } }

/-- The debug log emitted at the top of build_subscription_results,
depending on whether the current since-cursor is a concrete clock. -/
def sinceLogOf (sub : watchman_client_subscription) : LogEntry :=
  match sub.query.since_spec with
  | some (w_clockspec.clock p) =>
      { level := LogLevel.DBG,
        msg := "running subscription " ++ sub.name ++ " rules since " ++ toString p.ticks }
  | _ =>
      { level := LogLevel.DBG,
        msg := "running subscription " ++ sub.name ++ " rules with no since" }

/-- Everything build_subscription_results produces: the subscription as
mutated, the optional response, the out-parameter clock position (written
only on success), the query value actually passed to the engine, and the
log calls made. -/
structure BuildResult where
  sub : watchman_client_subscription
  response : Option SubscriptionPayload
  position : Option ClockPosition
  queryRun : w_query
  logs : List LogEntry
deriving DecidableEq

/-- build_subscription_results: configure the query timeouts, invoke the
engine with the current since-cursor, and on success install the clock at
the start of the query as the new since-cursor; an engine error returns
no response and leaves the since-cursor alone; an empty result set
returns no response but still advances the since-cursor. The response
reports the prior cursor as since only when it was a concrete clock. -/
def build_subscription_results (sub : watchman_client_subscription) (root : w_root)
    (engine : w_query → QueryOutcome) : BuildResult :=
  let q := queryForExecution sub root
  let subQ : watchman_client_subscription := { sub with query := q }
  match engine q with
  | QueryOutcome.fail errmsg =>
      { sub := subQ, response := none, position := none, queryRun := q,
        logs := [sinceLogOf sub,
          { level := LogLevel.ERR,
            msg := "error running subscription " ++ sub.name ++ " query: " ++ errmsg }] }
  | QueryOutcome.ok res =>
      if res.resultsArray.isEmpty then
        { sub := update_subscription_ticks subQ res, response := none,
          position := some res.clockAtStartOfQuery, queryRun := q,
          logs := [sinceLogOf sub] }
      else
        { sub := update_subscription_ticks subQ res,
          response := some
            { since :=
                match q.since_spec with
                | some (w_clockspec.clock p) => some (toClockString p)
                | _ => none,
              is_fresh_instance := res.is_fresh_instance,
              clock := toClockString res.clockAtStartOfQuery,
              files := res.resultsArray,
              root := root.root_path,
              subscription := sub.name,
              unilateral := true,
              warnings := [] },
          position := some res.clockAtStartOfQuery, queryRun := q,
          logs := [sinceLogOf sub] }

/-- add_root_warnings_to_response: attach the accumulated root warnings to
a response about to be delivered. -/
def add_root_warnings_to_response (resp : SubscriptionPayload) (root : w_root) :
    SubscriptionPayload :=
  { resp with warnings := root.warnings }

/-- Result of w_run_subscription_rules: the mutated subscription, the
payload enqueued to the client if any, the query handed to the engine,
and the log calls made. -/
structure RunRulesResult where
  sub : watchman_client_subscription
  enqueued : Option SubscriptionPayload
  queryRun : w_query
  logs : List LogEntry
deriving DecidableEq

/-- w_run_subscription_rules: build the results and, when a response was
produced, add the root warnings and enqueue it on the client. -/
def w_run_subscription_rules (sub : watchman_client_subscription) (root : w_root)
    (engine : w_query → QueryOutcome) : RunRulesResult :=
  let b := build_subscription_results sub root engine
  match b.response with
  | none => { sub := b.sub, enqueued := none, queryRun := b.queryRun, logs := b.logs }
  | some resp =>
      { sub := b.sub, enqueued := some (add_root_warnings_to_response resp root),
        queryRun := b.queryRun, logs := b.logs }

/-- Resolution of the weak client reference held by a subscription:
either the client is gone or it is still reachable. -/
inductive ClientRef
  | vacated
  | present
deriving DecidableEq

/-- Everything observable from one processSubscription dispatch: the
subscription as mutated, the payload enqueued if any, the query passed to
the engine if the engine was invoked at all, and the log calls made. -/
structure ProcResult where
  sub : watchman_client_subscription
  enqueued : Option SubscriptionPayload
  queryRun : Option w_query
  logs : List LogEntry
deriving DecidableEq

/-- The log emitted when lockClient resolves to nothing; the source logs
this at watchman ERR severity. -/
def vacatedClientLog : LogEntry :=
  { level := LogLevel.ERR,
    msg := "encountered a vacated client while running subscription rules" }

/-- processSubscription: resolve the weak client (a vacated client exits
at once); read the current root position; if the tick cursor is already
at the current tick do nothing; otherwise run the guarded policy scan,
apply the drop fast-forward when the scan decided drop, suppress the
query on drop, on defer and on an in-progress VCS operation with
vcs_defer set, and otherwise run the subscription rules and then set the
tick cursor to the position read at the start of the dispatch. -/
def processSubscription (client : ClientRef) (sub : watchman_client_subscription)
    (root : w_root) (engine : w_query → QueryOutcome) : ProcResult :=
  match client with
  | ClientRef.vacated =>
      { sub := sub, enqueued := none, queryRun := none, logs := [vacatedClientLog] }
  | ClientRef.present =>
      let position : ClockPosition := { root_number := root.root_number, ticks := root.ticks }
      let headerLog : LogEntry :=
        { level := LogLevel.DBG,
          msg := "sub=" ++ sub.name ++ " last=" ++ toString sub.last_sub_tick
            ++ " pending=" ++ toString position.ticks }
      if sub.last_sub_tick ≠ position.ticks then
        let scan := policyScan root.asserted_states sub.drop_or_defer
        let subAfterDrop :=
          if scan.drop then
            { sub with
                last_sub_tick := position.ticks,
                query := { sub.query with since_spec := some (w_clockspec.clock position) } }
          else sub
        let executeQuery1 := if scan.drop then false else true
        let executeQuery2 := if scan.defer then false else executeQuery1
        let executeQuery3 :=
          if sub.vcs_defer && root.vcsInProgress then false else executeQuery2
        let branchLogs :=
          (if scan.drop then
            [LogEntry.mk LogLevel.DBG
              ("dropping subscription notifications for " ++ sub.name
                ++ " until state " ++ scan.policy_name ++ " is vacated")] else [])
          ++ (if scan.defer then
            [LogEntry.mk LogLevel.DBG
              ("deferring subscription notifications for " ++ sub.name
                ++ " until state " ++ scan.policy_name ++ " is vacated")] else [])
          ++ (if sub.vcs_defer && root.vcsInProgress then
            [LogEntry.mk LogLevel.DBG
              ("deferring subscription notifications for " ++ sub.name
                ++ " until VCS operations complete")] else [])
        if executeQuery3 then
          let r := w_run_subscription_rules subAfterDrop root engine
          { sub := { r.sub with last_sub_tick := position.ticks },
            enqueued := r.enqueued, queryRun := some r.queryRun,
            logs := headerLog :: branchLogs ++ r.logs }
        else
          { sub := subAfterDrop, enqueued := none, queryRun := none,
            logs := headerLog :: branchLogs }
      else
        { sub := sub, enqueued := none, queryRun := none,
          logs := [headerLog,
            LogEntry.mk LogLevel.DBG ("subscription " ++ sub.name ++ " is up to date")] }

/-- Modelled from the spec: the drop_or_defer container is an ordered
association structure declared outside this fragment; assigning to a key
already present overwrites its value in place (last insertion wins) and
assigning a fresh key appends it, preserving insertion order. -/
def assignPolicy (t : List (String × Bool)) (k : String) (v : Bool) :
    List (String × Bool) :=
  if t.any (fun q => q.1 == k) then t.map (fun q => if q.1 == k then (k, v) else q)
  else t ++ [(k, v)]

/-- The policy table construction of cmd_subscribe: every name of the
defer list is assigned the defer kind first, in list order, then every
name of the drop list is assigned the drop kind, in list order. -/
def buildPolicyTable (defer_list drop_list : Option (List String)) :
    List (String × Bool) :=
  let t0 : List (String × Bool) := []
  let t1 := match defer_list with
    | some l => l.foldl (fun acc n => assignPolicy acc n false) t0
    | none => t0
  match drop_list with
  | some l => l.foldl (fun acc n => assignPolicy acc n true) t1
  | none => t1

/-- The defer_vcs unpacking of cmd_subscribe: the flag defaults to true
when the query spec has no defer_vcs field. -/
def defaultVcsDefer (defer_vcs : Option Bool) : Bool :=
  defer_vcs.getD true

/-- The per-client registry slice this fragment touches: the name index
(subscription name to subscription identity) and the broadcast-feed index
(subscription identity to the feed unsubscribe handle). Subscription
objects are identified by a number standing for their identity. -/
structure watchman_user_client where
  subscriptions : List (String × Nat)
  unilateralSub : List (Nat × Nat)
deriving DecidableEq

/-- unsubByName: look the name up in the name index; when absent report
false; when present erase the feed entry of the found subscription and
the name entry, and report true. -/
def unsubByName (c : watchman_user_client) (name : String) :
    watchman_user_client × Bool :=
  match c.subscriptions.find? (fun p => p.1 == name) with
  | none => (c, false)
  | some su =>
      ({ subscriptions := c.subscriptions.filter (fun p => !(p.1 == name)),
         unilateralSub := c.unilateralSub.filter (fun q => !(q.1 == su.2)) }, true)

/-- Reply of cmd_unsubscribe after root resolution: either the error sent
for a missing name argument, or the normal reply carrying the name and
the deleted flag. -/
inductive UnsubscribeOutcome
  | errorReply (msg : String)
  | reply (name : String) (deleted : Bool)
deriving DecidableEq

/-- cmd_unsubscribe: a missing name argument gets an error reply and
leaves the registry alone; otherwise unsubByName runs and its boolean is
reported as the deleted field of the reply. -/
def cmd_unsubscribe (c : watchman_user_client) (name : Option String) :
    watchman_user_client × UnsubscribeOutcome :=
  match name with
  | none => (c, UnsubscribeOutcome.errorReply "expected 2nd parameter to be subscription name")
  | some n =>
      let r := unsubByName c n
      (r.1, UnsubscribeOutcome.reply n r.2)

/-- The registry mutation of cmd_subscribe: first the feed entry is
inserted into unilateralSub (a map insert, which never overwrites an
existing key), then the name index entry is assigned (overwriting any
prior subscription of the same name). -/
def registerSubscription (c : watchman_user_client) (name : String)
    (subId handle : Nat) : watchman_user_client :=
  let uni :=
    if c.unilateralSub.any (fun q => q.1 == subId) then c.unilateralSub
    else c.unilateralSub ++ [(subId, handle)]
  let subs :=
    if c.subscriptions.any (fun p => p.1 == name) then
      c.subscriptions.map (fun p => if p.1 == name then (name, subId) else p)
    else c.subscriptions ++ [(name, subId)]
  { subscriptions := subs, unilateralSub := uni }

/-- A registry operation: a subscribe (with the fresh subscription
identity and the feed handle returned by the broadcast registration) or
an unsubscribe by name. -/
inductive RegOp
  | subscribe (name : String) (subId : Nat) (handle : Nat)
  | unsubscribe (name : String)
deriving DecidableEq

/-- Apply one registry operation to a client registry. -/
def applyOp (c : watchman_user_client) : RegOp → watchman_user_client
  | RegOp.subscribe name subId handle => registerSubscription c name subId handle
  | RegOp.unsubscribe name => (unsubByName c name).1

/-- Apply a sequence of registry operations, first to last. -/
def applyOps (c : watchman_user_client) (ops : List RegOp) : watchman_user_client :=
  ops.foldl applyOp c

/-- Freshness of one operation against the current registry: a subscribe
must use a name not currently registered and a subscription identity
unknown to both structures; an unsubscribe is always admissible. -/
def freshFor (c : watchman_user_client) : RegOp → Bool
  | RegOp.subscribe name subId _ =>
      c.subscriptions.all (fun p => !(p.1 == name) && !(p.2 == subId)) &&
        c.unilateralSub.all (fun q => !(q.1 == subId))
  | RegOp.unsubscribe _ => true

/-- Freshness of a whole operation sequence, checked step by step against
the evolving registry. -/
def okOps : watchman_user_client → List RegOp → Bool
  | _, [] => true
  | c, op :: ops => freshFor c op && okOps (applyOp c op) ops

/-- The lockstep invariant of the two registry structures: names are
unique in the name index, subscription identities are unique in both
structures, and each identity has an entry in the name index exactly when
it has one in the feed index. -/
def RegInv (c : watchman_user_client) : Prop :=
  (c.subscriptions.map (fun p => p.1)).Nodup ∧
  (c.subscriptions.map (fun p => p.2)).Nodup ∧
  (c.unilateralSub.map (fun q => q.1)).Nodup ∧
  (∀ i ∈ c.subscriptions.map (fun p => p.2), i ∈ c.unilateralSub.map (fun q => q.1)) ∧
  (∀ i ∈ c.unilateralSub.map (fun q => q.1), i ∈ c.subscriptions.map (fun p => p.2))


/-- Mapping then testing a predicate is testing the composed predicate. -/
theorem any_map_pair {α β : Type} (f : α → β) (l : List α) (p : β → Bool) :
    (l.map f).any p = l.any (fun x => p (f x)) := by
  induction l with
  | nil => rfl
  | cons x xs ih => simp [List.any_cons, ih]

/-- The drop flag computed by the policy loop: true exactly when some
entry of the table names an asserted state and is a drop entry, whatever
the accumulator values are. -/
theorem scanLoop_drop_any (a : List String) (t : List (String × Bool)) :
    ∀ (d : Bool) (p : String),
      (scanLoop a t d p).drop = t.any (fun q => a.contains q.1 && q.2) := by
  induction t with
  | nil => intro d p; simp [scanLoop]
  | cons q rest ih =>
      intro d p
      obtain ⟨nm, isDrop⟩ := q
      by_cases hc : nm ∈ a <;> cases hd : isDrop <;>
        simp [scanLoop, hc, hd, ih]

/-- The defer flag computed by the policy loop: true exactly when it was
already true on entry or some entry of the table names an asserted
state. -/
theorem scanLoop_defer_any (a : List String) (t : List (String × Bool)) :
    ∀ (d : Bool) (p : String),
      (scanLoop a t d p).defer = (d || t.any (fun q => a.contains q.1)) := by
  induction t with
  | nil => intro d p; simp [scanLoop]
  | cons q rest ih =>
      intro d p
      obtain ⟨nm, isDrop⟩ := q
      by_cases hc : nm ∈ a <;> cases hd : isDrop <;>
        simp [scanLoop, hc, hd, ih]

/-- A decided drop always comes with a decided defer in the loop result. -/
theorem scanLoop_drop_imp_defer (a : List String) (t : List (String × Bool))
    (d : Bool) (p : String) (h : (scanLoop a t d p).drop = true) :
    (scanLoop a t d p).defer = true := by
  rw [scanLoop_drop_any] at h
  rw [scanLoop_defer_any]
  rcases List.any_eq_true.mp h with ⟨q, hq, hpq⟩
  rw [Bool.and_eq_true] at hpq
  have : t.any (fun q => a.contains q.1) = true :=
    List.any_eq_true.mpr ⟨q, hq, hpq.1⟩
  rw [this, Bool.or_true]

/-- The first drop entry naming an asserted state settles the whole loop:
the result is the drop decision carrying that entry, independent of the
accumulator and of every entry after it. -/
theorem scanLoop_first_drop (a : List String) (t : List (String × Bool))
    (e : String × Bool) (h : t.find? (fun q => a.contains q.1 && q.2) = some e) :
    ∀ (d : Bool) (p : String),
      scanLoop a t d p = { defer := true, drop := true, policy_name := e.1 } := by
  induction t with
  | nil => intro d p; simp at h
  | cons q rest ih =>
      intro d p
      obtain ⟨nm, isDrop⟩ := q
      by_cases hc : nm ∈ a <;> cases hd : isDrop
      · rw [List.find?_cons_of_neg] at h
        · simp [scanLoop, hc, hd, ih h]
        · simp [hd]
      · rw [List.find?_cons_of_pos] at h
        · cases h
          simp [scanLoop, hc, hd]
        · simp [hc, hd]
      · rw [List.find?_cons_of_neg] at h
        · simp [scanLoop, hc, ih h]
        · simp [hc]
      · rw [List.find?_cons_of_neg] at h
        · simp [scanLoop, hc, ih h]
        · simp [hc]

/-- When no drop entry names an asserted state, the policy name reported
by the loop is the accumulator when defer was already decided on entry,
and otherwise the first entry of the table naming an asserted state. -/
theorem scanLoop_policy_name_no_drop (a : List String) (t : List (String × Bool))
    (h : t.any (fun q => a.contains q.1 && q.2) = false) :
    ∀ (d : Bool) (p : String),
      (scanLoop a t d p).policy_name =
        if d then p
        else (((t.find? (fun q => a.contains q.1)).map (fun q => q.1)).getD p) := by
  induction t with
  | nil => intro d p; cases d <;> simp [scanLoop]
  | cons q rest ih =>
      intro d p
      obtain ⟨nm, isDrop⟩ := q
      simp only [List.any_cons, Bool.or_eq_false_iff, Bool.and_eq_false_iff] at h
      obtain ⟨h1, h2⟩ := h
      by_cases hc : nm ∈ a
      · have hd : isDrop = false := by
          rcases h1 with h1 | h1
          · simp [hc] at h1
          · exact h1
        rw [List.find?_cons_of_pos _ (by simp [hc])]
        cases d <;> simp [scanLoop, hc, hd, ih h2]
      · rw [List.find?_cons_of_neg _ (by simp [hc])]
        simp [scanLoop, hc, ih h2 d p]

/-- The drop-implies-defer fact lifted to the guarded scan. -/
theorem policyScan_drop_imp_defer (a : List String) (t : List (String × Bool))
    (h : (policyScan a t).drop = true) : (policyScan a t).defer = true := by
  unfold policyScan at h ⊢
  by_cases hg : (!a.isEmpty && !t.isEmpty) = true
  · rw [if_pos hg] at h ⊢
    exact scanLoop_drop_imp_defer a t false "" h
  · rw [if_neg hg] at h
    cases h

/-- The query handed to the engine by the result builder is always the
subscription query with the timeouts configured. -/
theorem build_queryRun (sub : watchman_client_subscription) (root : w_root)
    (engine : w_query → QueryOutcome) :
    (build_subscription_results sub root engine).queryRun = queryForExecution sub root := by
  simp only [build_subscription_results]
  cases h : engine (queryForExecution sub root) with
  | fail msg => rfl
  | ok res => by_cases he : res.resultsArray.isEmpty <;> simp [he]

/-- Reduction of the result builder on an engine error: no response, the
out position untouched, the since-cursor untouched, and an error log. -/
theorem build_fail (sub : watchman_client_subscription) (root : w_root)
    (engine : w_query → QueryOutcome) (msg : String)
    (h : engine (queryForExecution sub root) = QueryOutcome.fail msg) :
    build_subscription_results sub root engine =
      { sub := { sub with query := queryForExecution sub root },
        response := none, position := none, queryRun := queryForExecution sub root,
        logs := [sinceLogOf sub,
          { level := LogLevel.ERR,
            msg := "error running subscription " ++ sub.name ++ " query: " ++ msg }] } := by
  simp only [build_subscription_results]
  rw [h]

/-- Reduction of the result builder on a successful query with an empty
result set: no response, but the position is written and the since-cursor
is advanced. -/
theorem build_ok_empty (sub : watchman_client_subscription) (root : w_root)
    (engine : w_query → QueryOutcome) (res : w_query_res)
    (h : engine (queryForExecution sub root) = QueryOutcome.ok res)
    (he : res.resultsArray = []) :
    build_subscription_results sub root engine =
      { sub := update_subscription_ticks { sub with query := queryForExecution sub root } res,
        response := none, position := some res.clockAtStartOfQuery,
        queryRun := queryForExecution sub root, logs := [sinceLogOf sub] } := by
  simp only [build_subscription_results]
  rw [h]
  simp [he]

/-- w_run_subscription_rules on an engine error: nothing enqueued, the
since-cursor untouched, an error log emitted. -/
theorem run_rules_fail (sub : watchman_client_subscription) (root : w_root)
    (engine : w_query → QueryOutcome) (msg : String)
    (h : engine (queryForExecution sub root) = QueryOutcome.fail msg) :
    w_run_subscription_rules sub root engine =
      { sub := { sub with query := queryForExecution sub root },
        enqueued := none, queryRun := queryForExecution sub root,
        logs := [sinceLogOf sub,
          { level := LogLevel.ERR,
            msg := "error running subscription " ++ sub.name ++ " query: " ++ msg }] } := by
  unfold w_run_subscription_rules
  rw [build_fail sub root engine msg h]

/-- w_run_subscription_rules on an empty result: nothing enqueued but the
since-cursor is advanced to the clock at the start of the query. -/
theorem run_rules_ok_empty (sub : watchman_client_subscription) (root : w_root)
    (engine : w_query → QueryOutcome) (res : w_query_res)
    (h : engine (queryForExecution sub root) = QueryOutcome.ok res)
    (he : res.resultsArray = []) :
    w_run_subscription_rules sub root engine =
      { sub := update_subscription_ticks { sub with query := queryForExecution sub root } res,
        enqueued := none, queryRun := queryForExecution sub root,
        logs := [sinceLogOf sub] } := by
  unfold w_run_subscription_rules
  rw [build_ok_empty sub root engine res h he]

/-- Dispatch reduction when the tick cursor already equals the current
tick: the whole subscription is untouched, nothing is enqueued and the
engine is not invoked. -/
theorem processSubscription_up_to_date (sub : watchman_client_subscription)
    (root : w_root) (engine : w_query → QueryOutcome)
    (h : sub.last_sub_tick = root.ticks) :
    (processSubscription ClientRef.present sub root engine).sub = sub ∧
    (processSubscription ClientRef.present sub root engine).enqueued = none ∧
    (processSubscription ClientRef.present sub root engine).queryRun = none := by
  simp [processSubscription, h]

/-- Dispatch reduction when the scan decided drop: the tick cursor and
the since-cursor are fast-forwarded to the position read at the start of
the dispatch, nothing is enqueued and the engine is not invoked. -/
theorem processSubscription_drop (sub : watchman_client_subscription)
    (root : w_root) (engine : w_query → QueryOutcome)
    (hne : sub.last_sub_tick ≠ root.ticks)
    (hdrop : (policyScan root.asserted_states sub.drop_or_defer).drop = true) :
    (processSubscription ClientRef.present sub root engine).sub =
      { sub with
          last_sub_tick := root.ticks,
          query :=
            { sub.query with
                since_spec :=
                  some (w_clockspec.clock { root_number := root.root_number, ticks := root.ticks }) } } ∧
    (processSubscription ClientRef.present sub root engine).enqueued = none ∧
    (processSubscription ClientRef.present sub root engine).queryRun = none := by
  have hdefer := policyScan_drop_imp_defer _ _ hdrop
  simp [processSubscription, hne, hdrop, hdefer]

/-- Dispatch reduction when the scan decided defer without drop, or when
an in-progress VCS operation suppresses the query: the subscription is
untouched, nothing is enqueued and the engine is not invoked. -/
theorem processSubscription_skip (sub : watchman_client_subscription)
    (root : w_root) (engine : w_query → QueryOutcome)
    (hne : sub.last_sub_tick ≠ root.ticks)
    (hdrop : (policyScan root.asserted_states sub.drop_or_defer).drop = false)
    (hskip : (policyScan root.asserted_states sub.drop_or_defer).defer = true ∨
      (sub.vcs_defer && root.vcsInProgress) = true) :
    (processSubscription ClientRef.present sub root engine).sub = sub ∧
    (processSubscription ClientRef.present sub root engine).enqueued = none ∧
    (processSubscription ClientRef.present sub root engine).queryRun = none := by
  rcases hskip with hdefer | hvcs
  · simp [processSubscription, hne, hdrop, hdefer]
  · simp [processSubscription, hne, hdrop, hvcs]

/-- Dispatch reduction on the execute path: the rules run against the
current since-cursor and afterwards the tick cursor is set to the tick
read at the start of the dispatch. -/
theorem processSubscription_execute (sub : watchman_client_subscription)
    (root : w_root) (engine : w_query → QueryOutcome)
    (hne : sub.last_sub_tick ≠ root.ticks)
    (hdefer : (policyScan root.asserted_states sub.drop_or_defer).defer = false)
    (hvcs : (sub.vcs_defer && root.vcsInProgress) = false) :
    (processSubscription ClientRef.present sub root engine).sub =
      { (w_run_subscription_rules sub root engine).sub with last_sub_tick := root.ticks } ∧
    (processSubscription ClientRef.present sub root engine).enqueued =
      (w_run_subscription_rules sub root engine).enqueued ∧
    (processSubscription ClientRef.present sub root engine).queryRun =
      some (queryForExecution sub root) ∧
    (∀ e ∈ (w_run_subscription_rules sub root engine).logs,
      e ∈ (processSubscription ClientRef.present sub root engine).logs) := by
  have hdrop : (policyScan root.asserted_states sub.drop_or_defer).drop = false := by
    cases hd : (policyScan root.asserted_states sub.drop_or_defer).drop
    · rfl
    · rw [policyScan_drop_imp_defer _ _ hd] at hdefer; cases hdefer
  have hq : (w_run_subscription_rules sub root engine).queryRun
      = queryForExecution sub root := by
    unfold w_run_subscription_rules
    cases hb : (build_subscription_results sub root engine).response <;>
      simp [hb, build_queryRun]
  constructor
  · simp [processSubscription, hne, hdrop, hdefer, hvcs]
  constructor
  · simp [processSubscription, hne, hdrop, hdefer, hvcs]
  constructor
  · simp [processSubscription, hne, hdrop, hdefer, hvcs, hq]
  · intro e he
    simp [processSubscription, hne, hdrop, hdefer, hvcs, he]

/-- Membership in the mapped second components of the name index after
erasing one name: exactly the old identities other than the erased one,
provided both uniqueness parts of the registry invariant hold. -/
theorem mem_snd_filter_name (subs : List (String × Nat)) (name : String) (su : String × Nat)
    (h1 : (subs.map (fun p => p.1)).Nodup) (h2 : (subs.map (fun p => p.2)).Nodup)
    (hmem : su ∈ subs) (hname : su.1 = name) (i : Nat) :
    (i ∈ (subs.filter (fun p => !(p.1 == name))).map (fun p => p.2)) ↔
      (i ∈ subs.map (fun p => p.2) ∧ i ≠ su.2) := by
  constructor
  · rintro hi
    rcases List.mem_map.mp hi with ⟨p, hp, hpi⟩
    rcases List.mem_filter.mp hp with ⟨hpmem, hpname⟩
    have hpname2 : p.1 ≠ name := by simpa using hpname
    refine ⟨List.mem_map.mpr ⟨p, hpmem, hpi⟩, ?_⟩
    intro hieq
    have : p = su := by
      apply List.inj_on_of_nodup_map h2 hpmem hmem
      simp [hpi, hieq]
    rw [this, hname] at hpname2
    exact hpname2 rfl
  · rintro ⟨hi, hine⟩
    rcases List.mem_map.mp hi with ⟨p, hp, hpi⟩
    refine List.mem_map.mpr ⟨p, List.mem_filter.mpr ⟨hp, ?_⟩, hpi⟩
    have : p.1 ≠ name := by
      intro hpname
      have : p = su := by
        apply List.inj_on_of_nodup_map h1 hp hmem
        simp [hpname, hname]
      rw [this] at hpi
      exact hine (hpi ▸ rfl)
    simpa using this

/-- Membership in the mapped first components of the feed index after
erasing one identity: exactly the old identities other than the erased
one. -/
theorem mem_fst_filter_id (uni : List (Nat × Nat)) (i j : Nat) :
    (j ∈ (uni.filter (fun q => !(q.1 == i))).map (fun q => q.1)) ↔
      (j ∈ uni.map (fun q => q.1) ∧ j ≠ i) := by
  constructor
  · rintro hj
    rcases List.mem_map.mp hj with ⟨q, hq, hqj⟩
    rcases List.mem_filter.mp hq with ⟨hqmem, hqne⟩
    refine ⟨List.mem_map.mpr ⟨q, hqmem, hqj⟩, ?_⟩
    intro hji
    rw [← hqj] at hji
    simp [hji] at hqne
  · rintro ⟨hj, hne⟩
    rcases List.mem_map.mp hj with ⟨q, hq, hqj⟩
    refine List.mem_map.mpr ⟨q, List.mem_filter.mpr ⟨hq, ?_⟩, hqj⟩
    rw [← hqj] at hne
    simpa using hne

/-- unsubByName preserves the registry lockstep invariant. -/
theorem RegInv_unsubByName (c : watchman_user_client) (name : String)
    (h : RegInv c) : RegInv (unsubByName c name).1 := by
  obtain ⟨h1, h2, h3, h4, h5⟩ := h
  cases hf : c.subscriptions.find? (fun p => p.1 == name) with
  | none => simpa [unsubByName, hf] using ⟨h1, h2, h3, h4, h5⟩
  | some su =>
      have hsumem : su ∈ c.subscriptions := List.mem_of_find?_eq_some hf
      have hsuname : su.1 = name := by
        have := List.find?_some hf
        simpa using this
      simp only [unsubByName, hf]
      refine ⟨?_, ?_, ?_, ?_, ?_⟩
      · exact List.Nodup.sublist (List.Sublist.map _ (List.filter_sublist _)) h1
      · exact List.Nodup.sublist (List.Sublist.map _ (List.filter_sublist _)) h2
      · exact List.Nodup.sublist (List.Sublist.map _ (List.filter_sublist _)) h3
      · intro i hi
        rcases (mem_snd_filter_name c.subscriptions name su h1 h2 hsumem hsuname i).mp hi
          with ⟨hi1, hi2⟩
        exact (mem_fst_filter_id c.unilateralSub su.2 i).mpr ⟨h4 i hi1, hi2⟩
      · intro i hi
        rcases (mem_fst_filter_id c.unilateralSub su.2 i).mp hi with ⟨hi1, hi2⟩
        exact (mem_snd_filter_name c.subscriptions name su h1 h2 hsumem hsuname i).mpr
          ⟨h5 i hi1, hi2⟩

/-- Under the freshness conditions, the subscribe-time registration
appends the two entries together. -/
theorem registerSubscription_fresh (c : watchman_user_client) (name : String)
    (subId handle : Nat)
    (hfresh : freshFor c (RegOp.subscribe name subId handle) = true) :
    registerSubscription c name subId handle =
      { subscriptions := c.subscriptions ++ [(name, subId)],
        unilateralSub := c.unilateralSub ++ [(subId, handle)] } := by
  simp only [freshFor, Bool.and_eq_true, List.all_eq_true] at hfresh
  obtain ⟨hsubs, huni⟩ := hfresh
  have hname : c.subscriptions.any (fun p => p.1 == name) = false := by
    rw [List.any_eq_false]
    intro p hp
    simpa using (hsubs p hp).1
  have hid : c.unilateralSub.any (fun q => q.1 == subId) = false := by
    rw [List.any_eq_false]
    intro q hq
    have := huni q hq
    simpa using this
  simp [registerSubscription, hname, hid]

/-- Registration of a fresh subscription under a fresh name preserves the
registry lockstep invariant. -/
theorem RegInv_registerSubscription (c : watchman_user_client) (name : String)
    (subId handle : Nat) (h : RegInv c)
    (hfresh : freshFor c (RegOp.subscribe name subId handle) = true) :
    RegInv (registerSubscription c name subId handle) := by
  obtain ⟨h1, h2, h3, h4, h5⟩ := h
  rw [registerSubscription_fresh c name subId handle hfresh]
  simp only [freshFor, Bool.and_eq_true, List.all_eq_true] at hfresh
  obtain ⟨hsubs, huni⟩ := hfresh
  have hname : name ∉ c.subscriptions.map (fun p => p.1) := by
    intro hmem
    rcases List.mem_map.mp hmem with ⟨p, hp, hpe⟩
    have := (hsubs p hp).1
    simp [hpe] at this
  have hid1 : subId ∉ c.subscriptions.map (fun p => p.2) := by
    intro hmem
    rcases List.mem_map.mp hmem with ⟨p, hp, hpe⟩
    have := (hsubs p hp).2
    simp [hpe] at this
  have hid2 : subId ∉ c.unilateralSub.map (fun q => q.1) := by
    intro hmem
    rcases List.mem_map.mp hmem with ⟨q, hq, hqe⟩
    have := huni q hq
    simp [hqe] at this
  refine ⟨?_, ?_, ?_, ?_, ?_⟩
  · rw [List.map_append, List.nodup_append]
    exact ⟨h1, List.nodup_singleton name, List.disjoint_singleton.mpr hname⟩
  · rw [List.map_append, List.nodup_append]
    exact ⟨h2, List.nodup_singleton subId, List.disjoint_singleton.mpr hid1⟩
  · rw [List.map_append, List.nodup_append]
    exact ⟨h3, List.nodup_singleton subId, List.disjoint_singleton.mpr hid2⟩
  · intro i hi
    rw [List.map_append, List.mem_append] at hi ⊢
    rcases hi with hi | hi
    · exact Or.inl (h4 i hi)
    · exact Or.inr (by simpa using hi)
  · intro i hi
    rw [List.map_append, List.mem_append] at hi ⊢
    rcases hi with hi | hi
    · exact Or.inl (h5 i hi)
    · exact Or.inr (by simpa using hi)

/-- Any admissible operation preserves the registry lockstep invariant. -/
theorem RegInv_applyOp (c : watchman_user_client) (op : RegOp) (h : RegInv c)
    (hfresh : freshFor c op = true) : RegInv (applyOp c op) := by
  cases op with
  | subscribe name subId handle =>
      exact RegInv_registerSubscription c name subId handle h hfresh
  | unsubscribe name => exact RegInv_unsubByName c name h

/-- Any admissible sequence of operations preserves the registry lockstep
invariant. -/
theorem RegInv_applyOps (ops : List RegOp) : ∀ (c : watchman_user_client),
    RegInv c → okOps c ops = true → RegInv (applyOps c ops) := by
  induction ops with
  | nil => intro c h _; exact h
  | cons op rest ih =>
      intro c h hok
      rw [okOps, Bool.and_eq_true] at hok
      exact ih (applyOp c op) (RegInv_applyOp c op h hok.1) hok.2

/-- Folding fresh assignments over the ordered policy table appends the
assigned pairs in list order. -/
theorem foldl_assignPolicy_fresh (v : Bool) (l : List String) :
    ∀ (t : List (String × Bool)),
      (∀ n ∈ l, ∀ q ∈ t, q.1 ≠ n) → l.Nodup →
      l.foldl (fun acc n => assignPolicy acc n v) t = t ++ l.map (fun n => (n, v)) := by
  induction l with
  | nil => intro t _ _; simp
  | cons n rest ih =>
      intro t hfresh hnd
      rw [List.foldl_cons]
      rw [List.nodup_cons] at hnd
      have hany : t.any (fun q => q.1 == n) = false := by
        rw [List.any_eq_false]
        intro q hq
        simpa using hfresh n (List.mem_cons_self n rest) q hq
      have step : assignPolicy t n v = t ++ [(n, v)] := by
        simp [assignPolicy, hany]
      rw [step]
      rw [ih (t ++ [(n, v)]) ?fresh hnd.2]
      · simp
      case fresh =>
        intro m hm q hq
        rcases List.mem_append.mp hq with hq | hq
        · exact hfresh m (List.mem_cons_of_mem _ hm) q hq
        · have hqe : q = (n, v) := by simpa using hq
          rw [hqe]
          intro he
          simp only [Prod.fst] at he
          subst he
          exact hnd.1 hm

/-- When the names of the defer and drop lists are pairwise distinct, the
assembled policy table is the defer pairs followed by the drop pairs, in
list order. -/
theorem buildPolicyTable_eq_append (dl pl : List String) (h : (dl ++ pl).Nodup) :
    buildPolicyTable (some dl) (some pl) =
      dl.map (fun n => (n, false)) ++ pl.map (fun n => (n, true)) := by
  rw [List.nodup_append] at h
  obtain ⟨hdl, hpl, hdisj⟩ := h
  simp only [buildPolicyTable]
  rw [foldl_assignPolicy_fresh false dl [] (by intro n _ q hq; cases hq) hdl]
  simp only [List.nil_append]
  rw [foldl_assignPolicy_fresh true pl (dl.map (fun n => (n, false))) ?fresh hpl]
  case fresh =>
    intro m hm q hq
    rcases List.mem_map.mp hq with ⟨x, hx, hxe⟩
    rw [← hxe]
    intro he
    simp only [Prod.fst] at he
    subst he
    exact hdisj hx hm

/-- In a table of defer pairs followed by drop pairs, the first entry
that is a drop entry naming an asserted state is the first asserted name
of the drop list. -/
theorem table_find_drop (a dl pl : List String) :
    ((dl.map (fun n => (n, false)) ++ pl.map (fun n => (n, true))).find?
        (fun q => a.contains q.1 && q.2))
      = (pl.find? (fun n => a.contains n)).map (fun n => (n, true)) := by
  rw [List.find?_append]
  have h1 : (dl.map (fun n => (n, false))).find? (fun q => a.contains q.1 && q.2) = none := by
    rw [List.find?_eq_none]
    intro x hx
    rcases List.mem_map.mp hx with ⟨n, _, he⟩
    rw [← he]
    simp
  rw [h1, Option.none_or, List.find?_map]
  have hp : ((fun q : String × Bool => a.contains q.1 && q.2) ∘ (fun n => (n, true)))
      = (fun n => a.contains n) := by
    funext n
    simp
  rw [hp]

/-- In a table of defer pairs followed by drop pairs where no drop name
is asserted, the first entry naming an asserted state is the first
asserted name of the defer list. -/
theorem table_find_member (a dl pl : List String)
    (hpl : pl.any (fun n => a.contains n) = false) :
    ((dl.map (fun n => (n, false)) ++ pl.map (fun n => (n, true))).find?
        (fun q => a.contains q.1))
      = (dl.find? (fun n => a.contains n)).map (fun n => (n, false)) := by
  rw [List.find?_append]
  have h2 : (pl.map (fun n => (n, true))).find? (fun q => a.contains q.1) = none := by
    rw [List.find?_eq_none]
    intro x hx
    rcases List.mem_map.mp hx with ⟨n, hn, he⟩
    rw [← he]
    rw [List.any_eq_false] at hpl
    simpa using hpl n hn
  rw [h2, Option.or_none, List.find?_map]
  have hp : ((fun q : String × Bool => a.contains q.1) ∘ (fun n => (n, false)))
      = (fun n => a.contains n) := by
    funext n
    simp
  rw [hp]

/-- The cancel boolean is true exactly when the name is registered. -/
theorem unsubByName_deleted_iff (c : watchman_user_client) (n : String) :
    (unsubByName c n).2 = true ↔ n ∈ c.subscriptions.map (fun p => p.1) := by
  cases hf : c.subscriptions.find? (fun p => p.1 == n) with
  | none =>
      simp only [unsubByName, hf]
      constructor
      · intro h
        cases h
      · intro hmem
        rcases List.mem_map.mp hmem with ⟨p, hp, hpe⟩
        rw [List.find?_eq_none] at hf
        exact absurd (by simp [hpe]) (hf p hp)
  | some su =>
      simp only [unsubByName, hf]
      constructor
      · intro _
        exact List.mem_map.mpr
          ⟨su, List.mem_of_find?_eq_some hf, by simpa using List.find?_some hf⟩
      · intro _
        trivial

/-- After a cancel the name is no longer registered, whether or not it
was present before. -/
theorem unsubByName_name_gone (c : watchman_user_client) (n : String) :
    n ∉ (unsubByName c n).1.subscriptions.map (fun p => p.1) := by
  cases hf : c.subscriptions.find? (fun p => p.1 == n) with
  | none =>
      simp only [unsubByName, hf]
      intro hmem
      rcases List.mem_map.mp hmem with ⟨p, hp, hpe⟩
      rw [List.find?_eq_none] at hf
      exact hf p hp (by simp [hpe])
  | some su =>
      simp only [unsubByName, hf]
      intro hmem
      rcases List.mem_map.mp hmem with ⟨p, hp, hpe⟩
      rcases List.mem_filter.mp hp with ⟨_, hpn⟩
      simp [hpe] at hpn

/-- Cancelling an unregistered name is a no-op reporting false. -/
theorem unsubByName_absent (c : watchman_user_client) (n : String)
    (h : n ∉ c.subscriptions.map (fun p => p.1)) : unsubByName c n = (c, false) := by
  have hf : c.subscriptions.find? (fun p => p.1 == n) = none := by
    rw [List.find?_eq_none]
    intro p hp hpe
    exact h (List.mem_map.mpr ⟨p, hp, by simpa using hpe⟩)
  simp [unsubByName, hf]

/-- A second cancel of the same name is a no-op reporting false. -/
theorem unsubByName_idem (c : watchman_user_client) (n : String) :
    unsubByName (unsubByName c n).1 n = ((unsubByName c n).1, false) :=
  unsubByName_absent (unsubByName c n).1 n (unsubByName_name_gone c n)

/-- With both inputs non-empty the guarded scan is the loop itself. -/
theorem policyScan_nonempty (a : List String) (t : List (String × Bool))
    (ha : a ≠ []) (ht : t ≠ []) : policyScan a t = scanLoop a t false "" := by
  have h1 : a.isEmpty = false := by
    cases a with
    | nil => exact absurd rfl ha
    | cons x xs => rfl
  have h2 : t.isEmpty = false := by
    cases t with
    | nil => exact absurd rfl ht
    | cons x xs => rfl
  simp [policyScan, h1, h2]

/-- C8: if at dispatch time the subscription tick cursor already equals
the root current tick, processSubscription takes no action: the whole
subscription record (tick cursor, since-cursor and policy table) is
unchanged, the query engine is not invoked, and nothing is delivered. -/
theorem C8_up_to_date_no_action (sub : watchman_client_subscription)
    (root : w_root) (engine : w_query → QueryOutcome)
    (h : sub.last_sub_tick = root.ticks) :
    (processSubscription ClientRef.present sub root engine).sub = sub ∧
    (processSubscription ClientRef.present sub root engine).enqueued = none ∧
    (processSubscription ClientRef.present sub root engine).queryRun = none :=
  processSubscription_up_to_date sub root engine h

/-- Witness for C8 at a concrete subscription already at the root tick. -/
theorem C8_up_to_date_no_action_witness :
    (processSubscription ClientRef.present
        ⟨"s8", ⟨none, 60000, 1000⟩, 5, [("st", true)], true⟩
        ⟨"/r8", 1, 5, ["st"], true, none, []⟩
        (fun _ => QueryOutcome.fail "never")).sub =
      ⟨"s8", ⟨none, 60000, 1000⟩, 5, [("st", true)], true⟩ :=
  (C8_up_to_date_no_action
    ⟨"s8", ⟨none, 60000, 1000⟩, 5, [("st", true)], true⟩
    ⟨"/r8", 1, 5, ["st"], true, none, []⟩
    (fun _ => QueryOutcome.fail "never") rfl).1

/-- C9 as stated is refuted at a concrete input: the dispatch on a
vacated client does log the condition at error severity, not merely as a
diagnostic trace. -/
theorem C9_vacated_err_counterexample :
    LogEntry.mk LogLevel.ERR
        "encountered a vacated client while running subscription rules"
      ∈ (processSubscription ClientRef.vacated
          ⟨"s9", ⟨none, 0, 0⟩, 0, [], true⟩
          ⟨"/r9", 1, 1, [], false, none, []⟩
          (fun _ => QueryOutcome.fail "e")).logs := by
  decide

/-- C9 (amended): when the weak client reference resolves to nothing the
dispatch exits with no effect at all — subscription untouched, nothing
enqueued, engine not invoked — and the condition is not surfaced to any
client as an error, but it is logged at error severity, not merely as a
diagnostic trace. -/
theorem C9_vacated_no_effect (sub : watchman_client_subscription)
    (root : w_root) (engine : w_query → QueryOutcome) :
    (processSubscription ClientRef.vacated sub root engine).sub = sub ∧
    (processSubscription ClientRef.vacated sub root engine).enqueued = none ∧
    (processSubscription ClientRef.vacated sub root engine).queryRun = none ∧
    (processSubscription ClientRef.vacated sub root engine).logs = [vacatedClientLog] ∧
    vacatedClientLog.level = LogLevel.ERR :=
  ⟨rfl, rfl, rfl, rfl, rfl⟩

/-- C10: cancel reports true and removes the subscription exactly when
the name is registered; cancelling an absent name leaves the registry
unchanged reporting false; a second cancel of the same name is a no-op
reporting false; and cmd_unsubscribe reports the boolean in a normal
reply, never an error. -/
theorem C10_cancel_idempotent (c : watchman_user_client) (n : String) :
    ((unsubByName c n).2 = true ↔ n ∈ c.subscriptions.map (fun p => p.1)) ∧
    (n ∉ (unsubByName c n).1.subscriptions.map (fun p => p.1)) ∧
    (n ∉ c.subscriptions.map (fun p => p.1) → unsubByName c n = (c, false)) ∧
    (unsubByName (unsubByName c n).1 n = ((unsubByName c n).1, false)) ∧
    (cmd_unsubscribe c (some n) =
      ((unsubByName c n).1, UnsubscribeOutcome.reply n (unsubByName c n).2)) :=
  ⟨unsubByName_deleted_iff c n, unsubByName_name_gone c n, unsubByName_absent c n,
    unsubByName_idem c n, rfl⟩

/-- Witness for C10 at a concrete registry holding one subscription. -/
theorem C10_cancel_idempotent_witness :
    (unsubByName ⟨[("s10", 3)], [(3, 7)]⟩ "s10").2 = true :=
  (C10_cancel_idempotent ⟨[("s10", 3)], [(3, 7)]⟩ "s10").1.mpr (by decide)

/-- C4: when the policy evaluation outcome is drop, the tick cursor and
the query since-cursor are fast-forwarded to the position read at the
start of the evaluation, the query engine is not invoked and no payload
is delivered, so the dropped interval is skipped for good. -/
theorem C4_drop_fast_forward (sub : watchman_client_subscription)
    (root : w_root) (engine : w_query → QueryOutcome)
    (hne : sub.last_sub_tick ≠ root.ticks)
    (hdrop : (policyScan root.asserted_states sub.drop_or_defer).drop = true) :
    (processSubscription ClientRef.present sub root engine).sub.last_sub_tick = root.ticks ∧
    (processSubscription ClientRef.present sub root engine).sub.query.since_spec =
      some (w_clockspec.clock { root_number := root.root_number, ticks := root.ticks }) ∧
    (processSubscription ClientRef.present sub root engine).queryRun = none ∧
    (processSubscription ClientRef.present sub root engine).enqueued = none := by
  obtain ⟨h1, h2, h3⟩ := processSubscription_drop sub root engine hne hdrop
  rw [h1]
  exact ⟨rfl, rfl, h3, h2⟩

/-- Witness for C4: a drop policy on an asserted state fast-forwards the
cursor of a concrete subscription from 0 to the root tick 3. -/
theorem C4_drop_fast_forward_witness :
    (processSubscription ClientRef.present
        ⟨"s4", ⟨none, 0, 0⟩, 0, [("rebase", true)], true⟩
        ⟨"/r4", 2, 3, ["rebase"], false, none, []⟩
        (fun _ => QueryOutcome.fail "never")).sub.last_sub_tick = 3 :=
  (C4_drop_fast_forward
    ⟨"s4", ⟨none, 0, 0⟩, 0, [("rebase", true)], true⟩
    ⟨"/r4", 2, 3, ["rebase"], false, none, []⟩
    (fun _ => QueryOutcome.fail "never") (by decide) (by decide)).1

/-- C7: a successful query with an empty result set produces no response
and nothing is enqueued for that cycle, yet the subscription since-cursor
still advances to the clock observed at the start of the query (also
reported through the position out-parameter). -/
theorem C7_empty_result_advances_cursor (sub : watchman_client_subscription)
    (root : w_root) (engine : w_query → QueryOutcome) (res : w_query_res)
    (hok : engine (queryForExecution sub root) = QueryOutcome.ok res)
    (hempty : res.resultsArray = []) :
    (build_subscription_results sub root engine).response = none ∧
    (w_run_subscription_rules sub root engine).enqueued = none ∧
    (build_subscription_results sub root engine).sub.query.since_spec =
      some (w_clockspec.clock res.clockAtStartOfQuery) ∧
    (build_subscription_results sub root engine).position = some res.clockAtStartOfQuery := by
  rw [build_ok_empty sub root engine res hok hempty,
    run_rules_ok_empty sub root engine res hok hempty]
  exact ⟨rfl, rfl, rfl, rfl⟩

/-- Witness for C7 at a concrete subscription with an engine returning an
empty result at clock tick 5. -/
theorem C7_empty_result_advances_cursor_witness :
    (build_subscription_results
        ⟨"s7", ⟨none, 0, 0⟩, 0, [], true⟩
        ⟨"/r7", 1, 5, [], false, none, []⟩
        (fun _ => QueryOutcome.ok ⟨⟨1, 5⟩, [], true⟩)).response = none :=
  (C7_empty_result_advances_cursor
    ⟨"s7", ⟨none, 0, 0⟩, 0, [], true⟩
    ⟨"/r7", 1, 5, [], false, none, []⟩
    (fun _ => QueryOutcome.ok ⟨⟨1, 5⟩, [], true⟩)
    ⟨⟨1, 5⟩, [], true⟩ rfl rfl).1

/-- C6: with no state-based defer or drop decision, vcs_defer set (the
default when defer_vcs is absent from the query spec) and a VCS operation
in progress, the dispatch defers: the subscription is untouched (cursor
and since-cursor frozen) and nothing is delivered; on a later settle with
the VCS operation finished and no asserted states, the query engine is
invoked with the original, unchanged since-cursor, so all accumulated
changes are delivered relative to it. -/
theorem C6_vcs_defer_freeze (sub : watchman_client_subscription)
    (root : w_root) (engine : w_query → QueryOutcome)
    (hne : sub.last_sub_tick ≠ root.ticks)
    (hdefer : (policyScan root.asserted_states sub.drop_or_defer).defer = false)
    (hvd : sub.vcs_defer = true)
    (hvip : root.vcsInProgress = true) :
    defaultVcsDefer none = true ∧
    (processSubscription ClientRef.present sub root engine).sub = sub ∧
    (processSubscription ClientRef.present sub root engine).enqueued = none ∧
    (processSubscription ClientRef.present sub root engine).queryRun = none ∧
    (∀ (root2 : w_root) (engine2 : w_query → QueryOutcome),
      root2.asserted_states = [] → root2.vcsInProgress = false →
      sub.last_sub_tick ≠ root2.ticks →
      (processSubscription ClientRef.present sub root2 engine2).queryRun =
        some (queryForExecution sub root2) ∧
      (queryForExecution sub root2).since_spec = sub.query.since_spec) := by
  have hdrop : (policyScan root.asserted_states sub.drop_or_defer).drop = false := by
    cases hd : (policyScan root.asserted_states sub.drop_or_defer).drop
    · rfl
    · rw [policyScan_drop_imp_defer _ _ hd] at hdefer
      cases hdefer
  obtain ⟨h1, h2, h3⟩ := processSubscription_skip sub root engine hne hdrop
    (Or.inr (by simp [hvd, hvip]))
  refine ⟨rfl, h1, h2, h3, ?_⟩
  intro root2 engine2 ha hv hne2
  have hdefer2 : (policyScan root2.asserted_states sub.drop_or_defer).defer = false := by
    rw [ha]
    rfl
  have hvcs2 : (sub.vcs_defer && root2.vcsInProgress) = false := by
    rw [hv, Bool.and_false]
  obtain ⟨g1, g2, g3, g4⟩ := processSubscription_execute sub root2 engine2 hne2 hdefer2 hvcs2
  exact ⟨g3, rfl⟩

/-- Witness for C6: a concrete subscription with default vcs_defer on a
root with a VCS operation in progress is left untouched. -/
theorem C6_vcs_defer_freeze_witness :
    (processSubscription ClientRef.present
        ⟨"s6", ⟨some (w_clockspec.clock ⟨1, 1⟩), 0, 0⟩, 1, [], true⟩
        ⟨"/r6", 1, 4, [], true, none, []⟩
        (fun _ => QueryOutcome.fail "never")).sub =
      ⟨"s6", ⟨some (w_clockspec.clock ⟨1, 1⟩), 0, 0⟩, 1, [], true⟩ :=
  (C6_vcs_defer_freeze
    ⟨"s6", ⟨some (w_clockspec.clock ⟨1, 1⟩), 0, 0⟩, 1, [], true⟩
    ⟨"/r6", 1, 4, [], true, none, []⟩
    (fun _ => QueryOutcome.fail "never")
    (by decide) (by decide) rfl rfl).2.1

/-- C1 as stated is refuted at a concrete input: when the engine reports
an error during a dispatch cycle, the subscription tick cursor is still
advanced to the current tick (here from 0 to 7) rather than left
unchanged. -/
theorem C1_error_advances_tick_counterexample :
    (processSubscription ClientRef.present
        ⟨"s1", ⟨some (w_clockspec.clock ⟨1, 0⟩), 60000, 0⟩, 0, [], true⟩
        ⟨"/r1", 1, 7, [], false, none, []⟩
        (fun _ => QueryOutcome.fail "engine error")).sub.last_sub_tick = 7 ∧
    ¬ (processSubscription ClientRef.present
        ⟨"s1", ⟨some (w_clockspec.clock ⟨1, 0⟩), 60000, 0⟩, 0, [], true⟩
        ⟨"/r1", 1, 7, [], false, none, []⟩
        (fun _ => QueryOutcome.fail "engine error")).sub.last_sub_tick = 0 := by
  decide

/-- C1 (amended): when the engine reports an error during an execute
cycle, the cycle is abandoned — the error is logged, no payload is
delivered and the query since-cursor is not advanced — but the
subscription tick cursor IS advanced to the current tick; because the
since-cursor is unchanged, a dispatch on a later settle carrying a new
tick re-invokes the engine with the original since-cursor, so the
interval is retried rather than lost. -/
theorem C1_query_error_cycle (sub : watchman_client_subscription)
    (root : w_root) (engine : w_query → QueryOutcome) (msg : String)
    (hne : sub.last_sub_tick ≠ root.ticks)
    (hdefer : (policyScan root.asserted_states sub.drop_or_defer).defer = false)
    (hvcs : (sub.vcs_defer && root.vcsInProgress) = false)
    (herr : engine (queryForExecution sub root) = QueryOutcome.fail msg) :
    (processSubscription ClientRef.present sub root engine).enqueued = none ∧
    (processSubscription ClientRef.present sub root engine).sub.query.since_spec =
      sub.query.since_spec ∧
    (processSubscription ClientRef.present sub root engine).sub.last_sub_tick = root.ticks ∧
    (LogEntry.mk LogLevel.ERR
        ("error running subscription " ++ sub.name ++ " query: " ++ msg)
      ∈ (processSubscription ClientRef.present sub root engine).logs) ∧
    (∀ (root2 : w_root) (engine2 : w_query → QueryOutcome),
      root2.asserted_states = [] → root2.vcsInProgress = false →
      (processSubscription ClientRef.present sub root engine).sub.last_sub_tick ≠ root2.ticks →
      (processSubscription ClientRef.present
          (processSubscription ClientRef.present sub root engine).sub root2 engine2).queryRun =
        some (queryForExecution
          (processSubscription ClientRef.present sub root engine).sub root2) ∧
      (queryForExecution
          (processSubscription ClientRef.present sub root engine).sub root2).since_spec =
        sub.query.since_spec) := by
  have hrun := run_rules_fail sub root engine msg herr
  obtain ⟨e1, e2, e3, e4⟩ := processSubscription_execute sub root engine hne hdefer hvcs
  simp only [hrun] at e1 e2 e4
  have hsince : (processSubscription ClientRef.present sub root engine).sub.query.since_spec =
      sub.query.since_spec := by
    rw [e1]
    rfl
  have hvcsflag : (processSubscription ClientRef.present sub root engine).sub.vcs_defer =
      sub.vcs_defer := by
    rw [e1]
  refine ⟨e2, hsince, by rw [e1], e4 _ (by simp), ?_⟩
  intro root2 engine2 ha hv hne2
  have hdefer2 : (policyScan root2.asserted_states
      (processSubscription ClientRef.present sub root engine).sub.drop_or_defer).defer
        = false := by
    rw [ha]
    rfl
  have hvcs2 : ((processSubscription ClientRef.present sub root engine).sub.vcs_defer &&
      root2.vcsInProgress) = false := by
    rw [hv, Bool.and_false]
  obtain ⟨g1, g2, g3, g4⟩ := processSubscription_execute
    (processSubscription ClientRef.present sub root engine).sub root2 engine2 hne2 hdefer2 hvcs2
  refine ⟨g3, ?_⟩
  show (processSubscription ClientRef.present sub root engine).sub.query.since_spec =
    sub.query.since_spec
  exact hsince

/-- Witness for the amended C1 at a concrete subscription, root and
always-failing engine. -/
theorem C1_query_error_cycle_witness :
    (processSubscription ClientRef.present
        ⟨"s1w", ⟨some (w_clockspec.clock ⟨1, 0⟩), 60000, 0⟩, 0, [], false⟩
        ⟨"/r1w", 1, 7, [], false, none, []⟩
        (fun _ => QueryOutcome.fail "boom")).enqueued = none :=
  (C1_query_error_cycle
    ⟨"s1w", ⟨some (w_clockspec.clock ⟨1, 0⟩), 60000, 0⟩, 0, [], false⟩
    ⟨"/r1w", 1, 7, [], false, none, []⟩
    (fun _ => QueryOutcome.fail "boom") "boom"
    (by decide) (by decide) (by decide) rfl).1

/-- C5: the first table entry that is a drop policy naming an asserted
state decides the outcome as drop and ends the scan (entries after it are
irrelevant), and whenever such a drop entry matches — even with defer
entries matching earlier in the same evaluation — the dispatch applies
the drop effects (cursor fast-forward, no query, no delivery), never the
defer effects. -/
theorem C5_drop_precedence (a : List String) (t1 t2 : List (String × Bool)) (nm : String)
    (hnm : a.contains nm = true)
    (hfirst : ∀ q ∈ t1, (a.contains q.1 && q.2) = false) :
    scanLoop a (t1 ++ (nm, true) :: t2) false "" =
      { defer := true, drop := true, policy_name := nm } ∧
    scanLoop a (t1 ++ (nm, true) :: t2) false "" = scanLoop a (t1 ++ [(nm, true)]) false "" ∧
    (∀ (sub : watchman_client_subscription) (root : w_root)
        (engine : w_query → QueryOutcome),
      sub.drop_or_defer = t1 ++ (nm, true) :: t2 →
      root.asserted_states = a → sub.last_sub_tick ≠ root.ticks →
      (processSubscription ClientRef.present sub root engine).sub.last_sub_tick = root.ticks ∧
      (processSubscription ClientRef.present sub root engine).enqueued = none ∧
      (processSubscription ClientRef.present sub root engine).queryRun = none) := by
  have ht1 : t1.find? (fun q => a.contains q.1 && q.2) = none := by
    rw [List.find?_eq_none]
    intro q hq
    show ¬ (a.contains q.1 && q.2) = true
    rw [hfirst q hq]
    simp
  have hfind : (t1 ++ (nm, true) :: t2).find? (fun q => a.contains q.1 && q.2)
      = some (nm, true) := by
    rw [List.find?_append, ht1, Option.none_or, List.find?_cons_of_pos t2]
    show (a.contains nm && true) = true
    rw [hnm]
    rfl
  have hfind2 : (t1 ++ [(nm, true)]).find? (fun q => a.contains q.1 && q.2)
      = some (nm, true) := by
    rw [List.find?_append, ht1, Option.none_or,
      List.find?_cons_of_pos ([] : List (String × Bool))]
    show (a.contains nm && true) = true
    rw [hnm]
    rfl
  have hs1 := scanLoop_first_drop a _ _ hfind false ""
  have hs2 := scanLoop_first_drop a _ _ hfind2 false ""
  refine ⟨hs1, by rw [hs1, hs2], ?_⟩
  intro sub root engine hsub hroot hne
  have hanil : a ≠ [] := by
    intro h0
    rw [h0] at hnm
    cases hnm
  have htnil : t1 ++ (nm, true) :: t2 ≠ [] := by
    intro h0
    cases t1 <;> simp at h0
  have hdrop : (policyScan root.asserted_states sub.drop_or_defer).drop = true := by
    rw [hroot, hsub, policyScan_nonempty a _ hanil htnil, hs1]
  obtain ⟨h1, h2, h3⟩ := processSubscription_drop sub root engine hne hdrop
  rw [h1]
  exact ⟨rfl, h2, h3⟩

/-- Witness for C5: with states st1 (defer, matching) and st2 (drop,
matching) the scan decides drop with policy name st2. -/
theorem C5_drop_precedence_witness :
    scanLoop ["st1", "st2"] ([("st1", false)] ++ ("st2", true) :: []) false "" =
      { defer := true, drop := true, policy_name := "st2" } :=
  (C5_drop_precedence ["st1", "st2"] [("st1", false)] [] "st2"
    (by decide) (by decide)).1

/-- C2: with pairwise distinct names, the policy table assembled at
subscribe time is the defer-list pairs followed by the drop-list pairs in
list order, and the evaluation scans it in exactly that insertion order:
the drop flag is decided by the drop-list names alone, and the reported
policy name is the first asserted drop-list name when one exists,
otherwise the first asserted defer-list name — so the decision depends on
the encounter order when several asserted states match. -/
theorem C2_policy_table_insertion_order (dl pl : List String)
    (h : (dl ++ pl).Nodup) :
    buildPolicyTable (some dl) (some pl) =
      dl.map (fun n => (n, false)) ++ pl.map (fun n => (n, true)) ∧
    (∀ a : List String,
      (scanLoop a (buildPolicyTable (some dl) (some pl)) false "").drop =
        pl.any (fun n => a.contains n) ∧
      (scanLoop a (buildPolicyTable (some dl) (some pl)) false "").defer =
        (dl.any (fun n => a.contains n) || pl.any (fun n => a.contains n)) ∧
      (∀ e : String, pl.find? (fun n => a.contains n) = some e →
        (scanLoop a (buildPolicyTable (some dl) (some pl)) false "").policy_name = e) ∧
      (pl.any (fun n => a.contains n) = false →
        (scanLoop a (buildPolicyTable (some dl) (some pl)) false "").policy_name =
          ((dl.find? (fun n => a.contains n)).getD ""))) := by
  have hT := buildPolicyTable_eq_append dl pl h
  refine ⟨hT, ?_⟩
  intro a
  rw [hT]
  have hdl0 : (dl.map (fun n => (n, false))).any (fun q => a.contains q.1 && q.2)
      = false := by
    rw [List.any_eq_false]
    intro x hx
    rcases List.mem_map.mp hx with ⟨n, _, he⟩
    rw [← he]
    simp
  have hpl0 : (pl.map (fun n => (n, true))).any (fun q => a.contains q.1 && q.2)
      = pl.any (fun n => a.contains n) := by
    rw [any_map_pair]
    simp
  have hdl1 : (dl.map (fun n => (n, false))).any (fun q => a.contains q.1)
      = dl.any (fun n => a.contains n) := by
    rw [any_map_pair]
  have hpl1 : (pl.map (fun n => (n, true))).any (fun q => a.contains q.1)
      = pl.any (fun n => a.contains n) := by
    rw [any_map_pair]
  refine ⟨?_, ?_, ?_, ?_⟩
  · rw [scanLoop_drop_any, List.any_append, hdl0, hpl0, Bool.false_or]
  · rw [scanLoop_defer_any, List.any_append, hdl1, hpl1, Bool.false_or]
  · intro e he
    have hfind : ((dl.map (fun n => (n, false)) ++ pl.map (fun n => (n, true))).find?
        (fun q => a.contains q.1 && q.2)) = some (e, true) := by
      rw [table_find_drop a dl pl, he]
      rfl
    have hs := scanLoop_first_drop a _ (e, true) hfind false ""
    rw [hs]
  · intro hnd
    have hnodrop : ((dl.map (fun n => (n, false)) ++ pl.map (fun n => (n, true))).any
        (fun q => a.contains q.1 && q.2)) = false := by
      rw [List.any_append, hdl0, hpl0, Bool.false_or]
      exact hnd
    rw [scanLoop_policy_name_no_drop a _ hnodrop false ""]
    rw [if_neg (by simp)]
    rw [table_find_member a dl pl hnd]
    cases dl.find? (fun n => a.contains n) <;> simp

/-- Witness for C2 at concrete defer and drop lists with distinct names. -/
theorem C2_policy_table_insertion_order_witness :
    buildPolicyTable (some ["d1", "d2"]) (some ["p1"]) =
      [("d1", false), ("d2", false), ("p1", true)] := by
  have hw := (C2_policy_table_insertion_order ["d1", "d2"] ["p1"] (by decide)).1
  simpa using hw

/-- C3 as stated is refuted at a concrete operation sequence: subscribing
twice under the same name leaves the overwritten subscription (identity
0) with an entry in the broadcast-feed index but none in the name index,
so the two structures are out of lockstep. -/
theorem C3_lockstep_counterexample :
    (0 ∈ (applyOps ⟨[], []⟩
        [RegOp.subscribe "a" 0 0, RegOp.subscribe "a" 1 1]).unilateralSub.map
          (fun q => q.1)) ∧
    ¬ (0 ∈ (applyOps ⟨[], []⟩
        [RegOp.subscribe "a" 0 0, RegOp.subscribe "a" 1 1]).subscriptions.map
          (fun p => p.2)) := by
  decide

/-- C3 (amended): both registry entries for a subscription are inserted
together at subscribe time and removed together at unsubscribe time, and
for every sequence of subscribe and unsubscribe operations in which each
subscribe uses a name not currently registered (and a fresh subscription
object), the two structures stay in lockstep: every subscription identity
has an entry in the name index exactly when it has one in the feed index.
Subscribing under an already-used name overwrites the name entry (last
writer wins, no error) but does not remove the prior subscription feed
entry, which breaks the lockstep until that subscription object is
destroyed. -/
theorem C3_lockstep_fresh_names (c : watchman_user_client) (ops : List RegOp)
    (hinv : RegInv c) (hok : okOps c ops = true) : RegInv (applyOps c ops) :=
  RegInv_applyOps ops c hinv hok

/-- Witness for the amended C3: a subscribe, an unsubscribe and a second
subscribe under a fresh name keep the registry in lockstep. -/
theorem C3_lockstep_fresh_names_witness :
    RegInv (applyOps ⟨[], []⟩
      [RegOp.subscribe "a" 0 0, RegOp.unsubscribe "a", RegOp.subscribe "b" 1 1]) :=
  C3_lockstep_fresh_names ⟨[], []⟩
    [RegOp.subscribe "a" 0 0, RegOp.unsubscribe "a", RegOp.subscribe "b" 1 1]
    ⟨List.nodup_nil, List.nodup_nil, List.nodup_nil, by simp, by simp⟩
    (by decide)
